import Mathlib

/-!
Verification of the solar-disk geometry and reprojection pipeline of the
solarspotting application (machine_learning/utils).  Exact rational or real
arithmetic stands in for the Python float arithmetic; every definition is a
line-by-line shallow embedding of the corresponding Python function, with the
file and line range named in its doc comment.
-/

/-- Python float modulo `a % b`: for `b > 0` the result lies in `[0, b)`.
Used by `calculate_B0_P0_L0` as `(SL - K) % 360.0` and `(Eta_deg - Theta) % 360.0`. -/
def pymod (a b : ℚ) : ℚ :=
  a - b * ⌊a / b⌋

/-- Wrapping step from `SolarOrientation.calculate_B0_P0_L0`
(solar_orientation.py lines 149-151): `SL_K_diff = (SL - K) % 360.0` followed by
`if SL_K_diff > 180: SL_K_diff -= 360`. -/
def sl_k_diff (SL K : ℚ) : ℚ :=
  let d0 := pymod (SL - K) 360
  if d0 > 180 then d0 - 360 else d0

/-- Quadrant-correction guard from `SolarOrientation.calculate_B0_P0_L0`
(solar_orientation.py line 156): `if 90 < SL_K_diff <= 270`, evaluated on the
wrapped difference `sl_k_diff`. -/
def l0_correction_applied (SL K : ℚ) : Bool :=
  decide (90 < sl_k_diff SL K ∧ sl_k_diff SL K ≤ 270)

/-- Final L0 assembly from `SolarOrientation.calculate_B0_P0_L0`
(solar_orientation.py lines 153-162), parameterized by the transcendental
intermediate `Eta_deg = rad2deg (arctan (tan (SL - K) * cos I))`, which is
supplied as an argument: apply the sign-dependent 180-degree quadrant
correction when the guard holds, then subtract `Theta` and reduce mod 360. -/
def l0_from_eta (SL K Theta Eta_deg : ℚ) : ℚ :=
  let Eta2 :=
    if 90 < sl_k_diff SL K ∧ sl_k_diff SL K ≤ 270 then
      (if Eta_deg > 0 then Eta_deg - 180 else Eta_deg + 180)
    else Eta_deg
  pymod (Eta2 - Theta) 360

/-- Disk-interior test of `ImageProcessor.create_disk_mask`
(image_processor.py lines 298-316) at one pixel: the radius is first shrunk by
the factor `0.975` (`r = r * 0.975`), then the pixel is kept when
`(x - cx)^2 + (y - cy)^2 <= r^2`. -/
def create_disk_mask (x y cx cy r : ℚ) : Bool :=
  let r2 := r * 0.975
  decide ((x - cx) ^ 2 + (y - cy) ^ 2 ≤ r2 ^ 2)

/-- Error type for the pipeline; the spec postulates a dedicated
no-disk-found error for the disk locator. -/
inductive PipelineError where
  | noDiskFound
deriving DecidableEq

/-- Detected circle `(cx, cy, r)` as returned by the Hough transform after
rounding to int (image_processor.py line 291). -/
structure HoughCircle where
  x : ℤ
  y : ℤ
  r : ℤ
deriving DecidableEq, Repr

/-- Result handling of `ImageProcessor.detect_sun_disk`
(image_processor.py lines 255-296).  The Hough transform result is `None` or a
nonempty circle list (modeled as `Option (HoughCircle × List HoughCircle)`);
the source returns `circles[0]` in the first case and, after printing a
message, returns Python `None` in the second.  The `Except` layer records
Python exception behavior: the source contains no raise statement, so every
path is `Except.ok`. -/
def detect_sun_disk (hough : Option (HoughCircle × List HoughCircle)) :
    Except PipelineError (Option HoughCircle) :=
  match hough with
  | some (c, _) => Except.ok (some c)
  | none => Except.ok none

/-- Unfolding of the Python modulo as a fractional part. -/
theorem pymod_eq_fract (a b : ℚ) (hb : b ≠ 0) :
    pymod a b = b * Int.fract (a / b) := by
  have hba : b * (a / b) = a := by field_simp
  unfold pymod
  rw [Int.fract, mul_sub, hba]

/-- Bounds of the Python float modulo: for positive modulus the result lies in
`[0, b)`. -/
theorem pymod_bounds (a b : ℚ) (hb : 0 < b) : 0 ≤ pymod a b ∧ pymod a b < b := by
  rw [pymod_eq_fract a b hb.ne']
  constructor
  · exact mul_nonneg hb.le (Int.fract_nonneg _)
  · calc b * Int.fract (a / b) < b * 1 :=
        mul_lt_mul_of_pos_left (Int.fract_lt_one _) hb
    _ = b := mul_one b

/-- Claim C1, code evaluation: the quadrant-correction guard in
`calculate_B0_P0_L0` does not fire on the whole interval `(90, 270]` of
`(SL - K) mod 360`.  The wrapped difference lands in `(-180, 180]`, so the
guard `90 < SL_K_diff <= 270` is reachable only on `(90, 180]`: at
`(SL - K) mod 360 = 200` (inside the claimed interval `(90, 270]`) no
correction is applied and `l0_from_eta` leaves a positive `Eta_deg`
uncorrected, whereas the claimed behavior would subtract 180.  The final
conjunct characterizes the guard exactly. -/
theorem calculate_B0_P0_L0_quadrant_guard_bug :
    pymod (200 - 0) 360 = 200 ∧
    (90 < (200 : ℚ) ∧ (200 : ℚ) ≤ 270) ∧
    l0_correction_applied 200 0 = false ∧
    l0_from_eta 200 0 0 50 = 50 ∧
    l0_from_eta 200 0 0 50 ≠ pymod (50 - 180) 360 ∧
    (∀ SL K : ℚ, l0_correction_applied SL K = true ↔
      (90 < pymod (SL - K) 360 ∧ pymod (SL - K) 360 ≤ 180)) := by
  have hf200 : ⌊(200 - 0 : ℚ) / 360⌋ = 0 := by
    rw [Int.floor_eq_iff]
    norm_num
  have hm : pymod (200 - 0 : ℚ) 360 = 200 := by
    unfold pymod
    rw [hf200]
    norm_num
  have hd : sl_k_diff 200 0 = -160 := by
    unfold sl_k_diff
    rw [hm]
    norm_num
  have happ : l0_correction_applied 200 0 = false := by
    unfold l0_correction_applied
    rw [hd]
    norm_num
  have hl0 : l0_from_eta 200 0 0 50 = 50 := by
    unfold l0_from_eta
    rw [hd]
    have hguard : ¬ (90 < (-160 : ℚ) ∧ (-160 : ℚ) ≤ 270) := by
      intro h
      linarith [h.1]
    rw [if_neg hguard]
    show pymod (50 - 0) 360 = 50
    unfold pymod
    have hf : ⌊(50 - 0 : ℚ) / 360⌋ = 0 := by
      rw [Int.floor_eq_iff]
      norm_num
    rw [hf]
    norm_num
  have h230 : pymod (50 - 180 : ℚ) 360 = 230 := by
    unfold pymod
    have hf : ⌊(50 - 180 : ℚ) / 360⌋ = -1 := by
      rw [Int.floor_eq_iff]
      norm_num
    rw [hf]
    norm_num
  refine ⟨hm, ⟨by norm_num, by norm_num⟩, happ, hl0, ?_, ?_⟩
  · rw [hl0, h230]
    norm_num
  · intro SL K
    obtain ⟨h0, h360⟩ := pymod_bounds (SL - K) 360 (by norm_num)
    unfold l0_correction_applied sl_k_diff
    by_cases h : pymod (SL - K) 360 > 180
    · simp only [if_pos h, decide_eq_true_eq]
      constructor
      · rintro ⟨h1, _⟩
        exact absurd h1 (by linarith)
      · rintro ⟨_, h2⟩
        exact absurd h2 (by linarith)
    · simp only [if_neg h, decide_eq_true_eq]
      push_neg at h
      constructor
      · rintro ⟨h1, _⟩
        exact ⟨h1, h⟩
      · rintro ⟨h1, h2⟩
        exact ⟨h1, by linarith⟩

/-- Claim C10: `create_disk_mask` keeps a pixel exactly when its squared
distance from the center is at most `(0.975 * r)^2`; consequently every pixel
whose squared distance lies in `((0.975 * r)^2, r^2]` satisfies the on-disk
condition yet is excluded from the mask, and for `0 < r` such pixels exist
(the limb pixel `(cx + r, cy)` is one), so the mask is strictly smaller than
the detected disk. -/
theorem create_disk_mask_shrinks (x y cx cy r : ℚ) (hr : 0 < r) :
    (create_disk_mask x y cx cy r = true ↔
      (x - cx) ^ 2 + (y - cy) ^ 2 ≤ (0.975 * r) ^ 2) ∧
    ((0.975 * r) ^ 2 < (x - cx) ^ 2 + (y - cy) ^ 2 →
      (x - cx) ^ 2 + (y - cy) ^ 2 ≤ r ^ 2 →
      create_disk_mask x y cx cy r = false) ∧
    (create_disk_mask (cx + r) cy cx cy r = false ∧
      (cx + r - cx) ^ 2 + (cy - cy) ^ 2 ≤ r ^ 2) := by
  have hcomm : (r * 0.975) ^ 2 = (0.975 * r) ^ 2 := by ring
  refine ⟨?_, ?_, ?_, ?_⟩
  · unfold create_disk_mask
    simp only [decide_eq_true_eq]
    rw [hcomm]
  · intro hlt _
    unfold create_disk_mask
    simp only [decide_eq_false_iff_not, not_le]
    rw [hcomm]
    exact hlt
  · unfold create_disk_mask
    simp only [decide_eq_false_iff_not, not_le]
    nlinarith [hr, mul_pos hr hr]
  · nlinarith [hr]

/-- Witness for `create_disk_mask_shrinks` at the concrete geometry
`(x, y) = (40, 0)`, `(cx, cy) = (0, 0)`, `r = 40`: the limb pixel is on-disk
yet masked off. -/
theorem create_disk_mask_shrinks_witness :
    (0 : ℚ) < 40 ∧
    ((create_disk_mask 40 0 0 0 40 = true ↔
      ((40 : ℚ) - 0) ^ 2 + ((0 : ℚ) - 0) ^ 2 ≤ (0.975 * 40) ^ 2) ∧
    ((0.975 * (40 : ℚ)) ^ 2 < ((40 : ℚ) - 0) ^ 2 + ((0 : ℚ) - 0) ^ 2 →
      ((40 : ℚ) - 0) ^ 2 + ((0 : ℚ) - 0) ^ 2 ≤ 40 ^ 2 →
      create_disk_mask 40 0 0 0 40 = false) ∧
    (create_disk_mask (0 + 40) 0 0 0 40 = false ∧
      ((0 : ℚ) + 40 - 0) ^ 2 + ((0 : ℚ) - 0) ^ 2 ≤ 40 ^ 2)) :=
  ⟨by norm_num, create_disk_mask_shrinks 40 0 0 0 40 (by norm_num)⟩

/-- Claim C3, counterexample: when the Hough transform returns no candidate
circle, `detect_sun_disk` does not fail at all — it returns the non-error
value Python `None` (after printing a message).  No raise statement exists on
this path, refuting the claim that the function raises a NoDiskFoundError. -/
theorem detect_sun_disk_none_counterexample :
    detect_sun_disk none = Except.ok none := by
  rfl

/-- Claim C3, amended: `detect_sun_disk` never raises; with no candidate
circle it returns `None`, and with a nonempty circle list it returns the
first circle.  (The pipeline callers then fail with a TypeError when
unpacking `None`, not with a dedicated NoDiskFoundError.) -/
theorem detect_sun_disk_returns_none (c : HoughCircle) (cs : List HoughCircle) :
    detect_sun_disk none = Except.ok none ∧
    detect_sun_disk (some (c, cs)) = Except.ok (some c) :=
  ⟨rfl, rfl⟩

/-- Candidate region record as produced by `ImageProcessor.detect_candidates`
(image_processor.py lines 593-600): float centroid and integer bounding box. -/
structure Region where
  cx : ℚ
  cy : ℚ
  min_x : ℤ
  min_y : ℤ
  max_x : ℤ
  max_y : ℤ
deriving DecidableEq, Repr, Inhabited

/-- Distance test from `ImageProcessor.merge_nearby_candidates`
(image_processor.py lines 620-621): `np.hypot(dx, dy) < max_dist`.  Stated on
squares: for the nonnegative euclidean norm, `hypot dx dy < m` holds exactly
when `0 < m` and `dx^2 + dy^2 < m^2`, which avoids the irrational square
root. -/
def hypot_lt (dx dy m : ℚ) : Bool :=
  decide (0 < m ∧ dx ^ 2 + dy ^ 2 < m ^ 2)

/-- Minimum of an integer list with Python `min` semantics on nonempty lists
(image_processor.py lines 626-629 apply it to the nonempty group). -/
def listMinZ : List ℤ → ℤ
  | [] => 0
  | x :: xs => xs.foldl min x

/-- Maximum of an integer list with Python `max` semantics on nonempty lists. -/
def listMaxZ : List ℤ → ℤ
  | [] => 0
  | x :: xs => xs.foldl max x

/-- Arithmetic mean `np.mean` over rationals (image_processor.py lines 639-640). -/
def ratMean (l : List ℚ) : ℚ :=
  l.sum / l.length

/-- Merged-candidate record built in `merge_nearby_candidates`
(image_processor.py lines 642-649): center is the mean of the group's centers,
bounding box is the union of the group's boxes. -/
def mkMergedRegion (group : List Region) : Region :=
  { cx := ratMean (group.map Region.cx)
    cy := ratMean (group.map Region.cy)
    min_x := listMinZ (group.map Region.min_x)
    min_y := listMinZ (group.map Region.min_y)
    max_x := listMaxZ (group.map Region.max_x)
    max_y := listMaxZ (group.map Region.max_y) }

/-- Oversize test of `merge_nearby_candidates` (image_processor.py lines
631-634): the union bounding box is too large when its width or height
strictly exceeds `max_size`. -/
def groupOversized (group : List Region) (max_size : ℤ) : Bool :=
  let min_x := listMinZ (group.map Region.min_x)
  let min_y := listMinZ (group.map Region.min_y)
  let max_x := listMaxZ (group.map Region.max_x)
  let max_y := listMaxZ (group.map Region.max_y)
  decide (max_size < max_x - min_x ∨ max_size < max_y - min_y)

/-- Inner gathering loop of `merge_nearby_candidates` (image_processor.py
lines 617-623): scan all indexed regions, skip already-used indices and the
anchor index, and absorb every region whose centroid is within `max_dist`
of the anchor centroid, marking it used. -/
def gatherGroup (i : ℕ) (r1 : Region) (max_dist : ℤ) :
    List (ℕ × Region) → List Region → List ℕ → List Region × List ℕ
  | [], group, used => (group, used)
  | (j, r2) :: rest, group, used =>
    if j ∈ used ∨ i = j then gatherGroup i r1 max_dist rest group used
    else if hypot_lt (r1.cx - r2.cx) (r1.cy - r2.cy) (max_dist : ℚ) then
      gatherGroup i r1 max_dist rest (group ++ [r2]) (j :: used)
    else gatherGroup i r1 max_dist rest group used

/-- Outer loop of `merge_nearby_candidates` (image_processor.py lines
612-649): for each unused anchor, gather its group, then either emit the
group unchanged (oversized union box) or emit one merged record. -/
def mergeLoop (allR : List (ℕ × Region)) (max_dist max_size : ℤ) :
    List (ℕ × Region) → List ℕ → List Region → List Region
  | [], _, merged => merged
  | (i, r1) :: rest, used, merged =>
    if i ∈ used then mergeLoop allR max_dist max_size rest used merged
    else if groupOversized (gatherGroup i r1 max_dist allR [r1] used).1 max_size then
      mergeLoop allR max_dist max_size rest
        (i :: (gatherGroup i r1 max_dist allR [r1] used).2)
        (merged ++ (gatherGroup i r1 max_dist allR [r1] used).1)
    else
      mergeLoop allR max_dist max_size rest
        (i :: (gatherGroup i r1 max_dist allR [r1] used).2)
        (merged ++ [mkMergedRegion (gatherGroup i r1 max_dist allR [r1] used).1])

/-- Embedding of `ImageProcessor.merge_nearby_candidates`
(image_processor.py lines 604-651). -/
def merge_nearby_candidates (regions : List Region) (max_dist max_size : ℤ) :
    List Region :=
  mergeLoop regions.enum max_dist max_size regions.enum [] []

/-- Groupability of an indexed region relative to an anchor: not yet used,
not the anchor itself, and centroid within the distance threshold. -/
def groupable (i : ℕ) (r1 : Region) (max_dist : ℤ) (used : List ℕ)
    (p : ℕ × Region) : Bool :=
  decide (p.1 ∉ used) && decide (p.1 ≠ i) &&
    hypot_lt (r1.cx - p.2.cx) (r1.cy - p.2.cy) (max_dist : ℚ)

/-- Specification-side restatement of the merge pass, following the spec's
words (spec.md section 4.4 step 3): iterate candidates; for each unmerged
candidate gather all other unmerged candidates within the distance threshold
of its centroid into a group; if either dimension of the union bounding box
exceeds the maximum size, emit every member of the group unmerged; otherwise
emit one merged candidate with mean center and union box.  Gathered members
and the anchor are marked used. -/
def mergeSpecLoop (allR : List (ℕ × Region)) (max_dist max_size : ℤ) :
    List (ℕ × Region) → List ℕ → List Region
  | [], _ => []
  | (i, r1) :: rest, used =>
    if i ∈ used then mergeSpecLoop allR max_dist max_size rest used
    else
      (if groupOversized
          (r1 :: (allR.filter (groupable i r1 max_dist used)).map Prod.snd) max_size then
        r1 :: (allR.filter (groupable i r1 max_dist used)).map Prod.snd
      else
        [mkMergedRegion
          (r1 :: (allR.filter (groupable i r1 max_dist used)).map Prod.snd)]) ++
        mergeSpecLoop allR max_dist max_size rest
          (i :: (((allR.filter (groupable i r1 max_dist used)).map Prod.fst).reverse ++ used))

/-- Specification-side merge over the enumerated input list. -/
def merge_spec (regions : List Region) (max_dist max_size : ℤ) : List Region :=
  mergeSpecLoop regions.enum max_dist max_size regions.enum []

/-- Characterization of the inner gathering loop: over a list of distinctly
indexed regions it collects, in order, exactly the groupable regions, and
marks their indices used. -/
theorem gatherGroup_eq (i : ℕ) (r1 : Region) (max_dist : ℤ) :
    ∀ (l : List (ℕ × Region)) (group : List Region) (used : List ℕ),
      (l.map Prod.fst).Nodup →
      gatherGroup i r1 max_dist l group used =
        (group ++ (l.filter (groupable i r1 max_dist used)).map Prod.snd,
         ((l.filter (groupable i r1 max_dist used)).map Prod.fst).reverse ++ used) := by
  intro l
  induction l with
  | nil => intro group used _; simp [gatherGroup]
  | cons p rest ih =>
    intro group used hnd
    obtain ⟨j, r2⟩ := p
    rw [List.map_cons, List.nodup_cons] at hnd
    obtain ⟨hj, hnd'⟩ := hnd
    by_cases h1 : j ∈ used ∨ i = j
    · have hpred : groupable i r1 max_dist used (j, r2) = false := by
        unfold groupable
        rcases h1 with h | h
        · simp [h]
        · simp [h.symm]
      rw [show gatherGroup i r1 max_dist ((j, r2) :: rest) group used =
            gatherGroup i r1 max_dist rest group used from by
          rw [gatherGroup]; rw [if_pos h1]]
      rw [List.filter_cons_of_neg (by simp [hpred])]
      exact ih group used hnd'
    · push_neg at h1
      obtain ⟨hju, hij⟩ := h1
      by_cases h2 : hypot_lt (r1.cx - r2.cx) (r1.cy - r2.cy) (max_dist : ℚ) = true
      · have hpred : groupable i r1 max_dist used (j, r2) = true := by
          unfold groupable
          simp [hju, Ne.symm hij, h2]
        have hstep : gatherGroup i r1 max_dist ((j, r2) :: rest) group used =
            gatherGroup i r1 max_dist rest (group ++ [r2]) (j :: used) := by
          rw [gatherGroup]
          rw [if_neg (by push_neg; exact ⟨hju, hij⟩), if_pos h2]
        have hrest : rest.filter (groupable i r1 max_dist (j :: used)) =
            rest.filter (groupable i r1 max_dist used) := by
          apply List.filter_congr
          intro q hq
          have hqj : q.1 ≠ j := by
            intro hcon
            have hmem : q.1 ∈ List.map Prod.fst rest := List.mem_map_of_mem Prod.fst hq
            rw [hcon] at hmem
            exact hj hmem
          have hdec : decide (q.1 ∉ j :: used) = decide (q.1 ∉ used) := by
            apply decide_eq_decide.mpr
            simp [List.mem_cons, hqj]
          unfold groupable
          rw [hdec]
        rw [hstep, ih (group ++ [r2]) (j :: used) hnd', hrest,
          List.filter_cons_of_pos (by simp [hpred])]
        rw [Prod.mk.injEq]
        refine ⟨?_, ?_⟩
        · rw [List.append_assoc]
          rfl
        · rw [List.map_cons, List.reverse_cons, List.append_assoc]
          rfl
      · have hpred : groupable i r1 max_dist used (j, r2) = false := by
          unfold groupable
          simp only [Bool.and_eq_false_iff]
          right
          simpa using h2
        have hstep : gatherGroup i r1 max_dist ((j, r2) :: rest) group used =
            gatherGroup i r1 max_dist rest group used := by
          rw [gatherGroup]
          rw [if_neg (by push_neg; exact ⟨hju, hij⟩), if_neg h2]
        rw [hstep, List.filter_cons_of_neg (by simp [hpred])]
        exact ih group used hnd'

/-- Accumulator form of the outer loop against the specification loop. -/
theorem mergeLoop_eq_spec (allR : List (ℕ × Region)) (max_dist max_size : ℤ)
    (hnd : (allR.map Prod.fst).Nodup) :
    ∀ (queue : List (ℕ × Region)) (used : List ℕ) (merged : List Region),
      mergeLoop allR max_dist max_size queue used merged =
        merged ++ mergeSpecLoop allR max_dist max_size queue used := by
  intro queue
  induction queue with
  | nil => intro used merged; simp [mergeLoop, mergeSpecLoop]
  | cons p rest ih =>
    intro used merged
    obtain ⟨i, r1⟩ := p
    rw [mergeLoop, mergeSpecLoop]
    by_cases hmem : i ∈ used
    · rw [if_pos hmem, if_pos hmem]
      exact ih used merged
    · rw [if_neg hmem, if_neg hmem]
      have hgather := gatherGroup_eq i r1 max_dist allR [r1] used hnd
      rw [hgather]
      by_cases hov : groupOversized
          (r1 :: (allR.filter (groupable i r1 max_dist used)).map Prod.snd)
          max_size = true
      · rw [if_pos (by simpa using hov), if_pos hov, ih, List.append_assoc]
        rfl
      · rw [if_neg (by simpa using hov), if_neg hov, ih, List.append_assoc]
        rfl

/-- Claim C2: `merge_nearby_candidates` computes, for each not-yet-used
anchor, the group of all other not-yet-used regions within the distance
threshold of its centroid, and emits the whole group unchanged when the union
bounding box is oversized, otherwise exactly one merged candidate with mean
center and union bounding box — stated as the equality with the
specification-side `merge_spec` on every input, together with the two
concrete scenarios: centers 50px apart under threshold 300 and max size 512
merge into one region with the mean center and union box, and a pair whose
union box exceeds 512 is returned unmerged. -/
theorem merge_nearby_candidates_matches_spec :
    (∀ (regions : List Region) (max_dist max_size : ℤ),
      merge_nearby_candidates regions max_dist max_size =
        merge_spec regions max_dist max_size) ∧
    merge_nearby_candidates
      [⟨100, 100, 90, 90, 110, 110⟩, ⟨150, 100, 140, 90, 160, 110⟩] 300 512 =
      [⟨125, 100, 90, 90, 160, 110⟩] ∧
    merge_nearby_candidates
      [⟨200, 200, 0, 0, 400, 400⟩, ⟨450, 200, 250, 0, 650, 400⟩] 300 512 =
      [⟨200, 200, 0, 0, 400, 400⟩, ⟨450, 200, 250, 0, 650, 400⟩] := by
  refine ⟨?_, ?_, ?_⟩
  · intro regions max_dist max_size
    unfold merge_nearby_candidates merge_spec
    have hnd : (regions.enum.map Prod.fst).Nodup := by
      rw [List.enum_map_fst]
      exact List.nodup_range _
    simpa using mergeLoop_eq_spec regions.enum max_dist max_size hnd regions.enum [] []
  · norm_num [merge_nearby_candidates, List.enum, List.enumFrom, mergeLoop,
      gatherGroup, groupOversized, mkMergedRegion, ratMean, listMinZ, listMaxZ,
      hypot_lt, List.foldl]
  · norm_num [merge_nearby_candidates, List.enum, List.enumFrom, mergeLoop,
      gatherGroup, groupOversized, mkMergedRegion, ratMean, listMinZ, listMaxZ,
      hypot_lt, List.foldl]

/-- State-threaded inner gathering loop: region reads go through the `store`
list, which every Python dict-field access reads and which any mutation would
have to write; the source (image_processor.py lines 617-623) only reads, and
the store is passed through and returned. -/
def gatherGroupT (i : ℕ) (r1 : Region) (max_dist : ℤ) :
    List ℕ → List Region → List ℕ → List Region → (List Region × List ℕ) × List Region
  | [], group, used, store => ((group, used), store)
  | j :: rest, group, used, store =>
    if j ∈ used ∨ i = j then gatherGroupT i r1 max_dist rest group used store
    else if hypot_lt (r1.cx - (store.getD j default).cx)
        (r1.cy - (store.getD j default).cy) (max_dist : ℚ) then
      gatherGroupT i r1 max_dist rest (group ++ [store.getD j default]) (j :: used) store
    else gatherGroupT i r1 max_dist rest group used store

/-- State-threaded outer loop of `merge_nearby_candidates`
(image_processor.py lines 604-651): candidates are read from the `store` by
index, the merged output accumulates either shared group members or one
freshly constructed merged record, and the store travels through every step. -/
def mergeLoopT (max_dist max_size : ℤ) :
    List ℕ → List ℕ → List Region → List Region → List Region × List Region
  | [], _, merged, store => (merged, store)
  | i :: rest, used, merged, store =>
    if i ∈ used then mergeLoopT max_dist max_size rest used merged store
    else if groupOversized
        (gatherGroupT i (store.getD i default) max_dist (List.range store.length)
          [store.getD i default] used store).1.1 max_size then
      mergeLoopT max_dist max_size rest
        (i :: (gatherGroupT i (store.getD i default) max_dist (List.range store.length)
          [store.getD i default] used store).1.2)
        (merged ++ (gatherGroupT i (store.getD i default) max_dist (List.range store.length)
          [store.getD i default] used store).1.1)
        ((gatherGroupT i (store.getD i default) max_dist (List.range store.length)
          [store.getD i default] used store).2)
    else
      mergeLoopT max_dist max_size rest
        (i :: (gatherGroupT i (store.getD i default) max_dist (List.range store.length)
          [store.getD i default] used store).1.2)
        (merged ++ [mkMergedRegion
          ((gatherGroupT i (store.getD i default) max_dist (List.range store.length)
            [store.getD i default] used store).1.1)])
        ((gatherGroupT i (store.getD i default) max_dist (List.range store.length)
          [store.getD i default] used store).2)

/-- State-threaded rendering of `ImageProcessor.merge_nearby_candidates`:
returns the merged list together with the final state of the input candidate
store. -/
def merge_nearby_candidates_tracked (regions : List Region)
    (max_dist max_size : ℤ) : List Region × List Region :=
  mergeLoopT max_dist max_size (List.range regions.length) [] [] regions

/-- Inner gathering loop never writes the store. -/
theorem gatherGroupT_store (i : ℕ) (r1 : Region) (max_dist : ℤ) :
    ∀ (l : List ℕ) (group : List Region) (used : List ℕ) (store : List Region),
      (gatherGroupT i r1 max_dist l group used store).2 = store := by
  intro l
  induction l with
  | nil => intro group used store; rfl
  | cons j rest ih =>
    intro group used store
    rw [gatherGroupT]
    by_cases h1 : j ∈ used ∨ i = j
    · rw [if_pos h1]
      exact ih group used store
    · rw [if_neg h1]
      by_cases h2 : hypot_lt (r1.cx - (store.getD j default).cx)
          (r1.cy - (store.getD j default).cy) (max_dist : ℚ) = true
      · rw [if_pos h2]
        exact ih _ _ store
      · rw [if_neg h2]
        exact ih group used store

/-- Outer loop never writes the store. -/
theorem mergeLoopT_store (max_dist max_size : ℤ) :
    ∀ (queue used : List ℕ) (merged store : List Region),
      (mergeLoopT max_dist max_size queue used merged store).2 = store := by
  intro queue
  induction queue with
  | nil => intro used merged store; rfl
  | cons i rest ih =>
    intro used merged store
    rw [mergeLoopT]
    by_cases hmem : i ∈ used
    · rw [if_pos hmem]
      exact ih used merged store
    · rw [if_neg hmem]
      have hst := gatherGroupT_store i (store.getD i default) max_dist
        (List.range store.length) [store.getD i default] used store
      by_cases hov : groupOversized
          (gatherGroupT i (store.getD i default) max_dist (List.range store.length)
            [store.getD i default] used store).1.1 max_size = true
      · rw [if_pos hov, ih]
        exact hst
      · rw [if_neg hov, ih]
        exact hst

/-- Claim C9: the candidate-merge pass is functional, not in-place — the
state-threaded rendering of `merge_nearby_candidates`, in which every access
to an input region reads the candidate store and any Python-level mutation
would surface as a store write, returns the store exactly as it received it:
no field of any input region is modified and the input list is unchanged
after the call (merged outputs are built by `mkMergedRegion` as fresh
records). -/
theorem merge_nearby_candidates_no_mutation :
    ∀ (regions : List Region) (max_dist max_size : ℤ),
      (merge_nearby_candidates_tracked regions max_dist max_size).2 = regions := by
  intro regions max_dist max_size
  unfold merge_nearby_candidates_tracked
  exact mergeLoopT_store max_dist max_size (List.range regions.length) [] [] regions

open scoped Classical

noncomputable section

/-- Component type for 3-vectors used by the reprojector. -/
abbrev V3 := ℝ × ℝ × ℝ

/-- Dot product `np.dot` on 3-vectors. -/
def vdot (a b : V3) : ℝ :=
  a.1 * b.1 + a.2.1 * b.2.1 + a.2.2 * b.2.2

/-- Cross product `np.cross` on 3-vectors. -/
def vcross (a b : V3) : V3 :=
  (a.2.1 * b.2.2 - a.2.2 * b.2.1,
   a.2.2 * b.1 - a.1 * b.2.2,
   a.1 * b.2.1 - a.2.1 * b.1)

/-- Euclidean norm `np.linalg.norm` on 3-vectors. -/
def vnorm (a : V3) : ℝ :=
  Real.sqrt (vdot a a)

/-- Componentwise subtraction. -/
def vsub (a b : V3) : V3 :=
  (a.1 - b.1, a.2.1 - b.2.1, a.2.2 - b.2.2)

/-- Componentwise addition. -/
def vadd (a b : V3) : V3 :=
  (a.1 + b.1, a.2.1 + b.2.1, a.2.2 + b.2.2)

/-- Scalar multiple. -/
def vsmul (s : ℝ) (a : V3) : V3 :=
  (s * a.1, s * a.2.1, s * a.2.2)

/-- Componentwise division by a scalar, as in `v /= np.linalg.norm(v)`.
Lean's total real division returns 0 on a zero divisor where numpy emits NaN
with a runtime warning; in both semantics a zero-norm division yields no valid
unit vector and no exception. -/
def vdivs (a : V3) (s : ℝ) : V3 :=
  (a.1 / s, a.2.1 / s, a.2.2 / s)

/-- Componentwise negation. -/
def vneg (a : V3) : V3 :=
  (-a.1, -a.2.1, -a.2.2)

/-- Degree-to-radian conversion `np.deg2rad`. -/
def deg2rad (x : ℝ) : ℝ :=
  x * Real.pi / 180

/-- Embedding of `SolarReprojector.cartesian_to_spherical`
(solar_reprojector.py lines 33-52) at a single pixel: normalize to
`nx = (x - cx)/r`, `ny = (y - cy)/r`; the z-component starts at zero and is
set to `sqrt(1 - (nx^2 + ny^2))` exactly on the on-disk mask
`nx^2 + ny^2 <= 1`.  The function returns only the triple `(nx, ny, nz)`;
the mask is internal and not part of the return value. -/
def cartesian_to_spherical (x y cx cy r : ℝ) : V3 :=
  ((x - cx) / r, (y - cy) / r,
   if ((x - cx) / r) ^ 2 + ((y - cy) / r) ^ 2 ≤ 1 then
     Real.sqrt (1 - (((x - cx) / r) ^ 2 + ((y - cy) / r) ^ 2))
   else 0)

end

/-- Claim C4, counterexample: the return value of `cartesian_to_spherical`
carries no invalid flag.  At the off-disk input `(x, y) = (2, 0)` with disk
`(0, 0, 1)` the function returns the bare triple `(2, 0, 0)`; at the valid
limb input `(1, 0)` it returns `(1, 0, 0)` — a genuine unit sphere point with
the same zero z-component.  The zero z-component therefore does not
distinguish an off-disk point from a valid sphere point, and no further
component is returned. -/
theorem cartesian_to_spherical_no_flag_counterexample :
    cartesian_to_spherical 2 0 0 0 1 = (2, 0, 0) ∧
    cartesian_to_spherical 1 0 0 0 1 = (1, 0, 0) ∧
    ((1 : ℝ) ^ 2 + 0 ^ 2 ≤ 1) ∧ ¬ ((2 : ℝ) ^ 2 + 0 ^ 2 ≤ 1) := by
  refine ⟨?_, ?_, by norm_num, by norm_num⟩
  · unfold cartesian_to_spherical
    norm_num
  · unfold cartesian_to_spherical
    norm_num

/-- Claim C4, amended: for `r > 0`, on-disk inputs (`nx^2 + ny^2 <= 1`)
produce a unit vector, and off-disk inputs (`nx^2 + ny^2 > 1`) produce a zero
z-component; no explicit invalid flag accompanies the triple, validity being
recoverable only from `nx^2 + ny^2 > 1` (the zero z-component alone is shared
with valid limb points). -/
theorem cartesian_to_spherical_unit_or_zero (x y cx cy r : ℝ) (_hr : 0 < r) :
    (((x - cx) / r) ^ 2 + ((y - cy) / r) ^ 2 ≤ 1 →
      (cartesian_to_spherical x y cx cy r).1 ^ 2 +
        (cartesian_to_spherical x y cx cy r).2.1 ^ 2 +
        (cartesian_to_spherical x y cx cy r).2.2 ^ 2 = 1) ∧
    (1 < ((x - cx) / r) ^ 2 + ((y - cy) / r) ^ 2 →
      (cartesian_to_spherical x y cx cy r).2.2 = 0) := by
  constructor
  · intro h
    unfold cartesian_to_spherical
    simp only [if_pos h]
    rw [Real.sq_sqrt (by linarith)]
    ring
  · intro h
    unfold cartesian_to_spherical
    simp only [if_neg (not_le.mpr h)]

/-- Witness for `cartesian_to_spherical_unit_or_zero` at the disk center
`(0, 0)` of the unit disk. -/
theorem cartesian_to_spherical_unit_or_zero_witness :
    (0 : ℝ) < 1 ∧
    ((((0 : ℝ) - 0) / 1) ^ 2 + (((0 : ℝ) - 0) / 1) ^ 2 ≤ 1 →
      (cartesian_to_spherical 0 0 0 0 1).1 ^ 2 +
        (cartesian_to_spherical 0 0 0 0 1).2.1 ^ 2 +
        (cartesian_to_spherical 0 0 0 0 1).2.2 ^ 2 = 1) ∧
    (1 < (((0 : ℝ) - 0) / 1) ^ 2 + (((0 : ℝ) - 0) / 1) ^ 2 →
      (cartesian_to_spherical 0 0 0 0 1).2.2 = 0) :=
  ⟨by norm_num, cartesian_to_spherical_unit_or_zero 0 0 0 0 1 (by norm_num)⟩

noncomputable section

/-- Unit surface normal used by `rectify_patch_from_solar_orientation`
(solar_reprojector.py lines 155-159): the spherical coordinates of the pixel,
divided by their norm. -/
def unitNormal (px py cx cy r : ℝ) : V3 :=
  vdivs (cartesian_to_spherical px py cx cy r)
    (vnorm (cartesian_to_spherical px py cx cy r))

/-- Image-plane north direction from P0 (solar_reprojector.py lines 162-163):
`north_2d = (-sin(P0_rad), -cos(P0_rad), 0)`. -/
def north2d (P0 : ℝ) : V3 :=
  (-(Real.sin (deg2rad P0)), -(Real.cos (deg2rad P0)), 0)

/-- Unnormalized projection of north onto the tangent plane at the candidate
normal (solar_reprojector.py line 166): `north_2d - dot(north_2d, n) * n`. -/
def northTangentRaw (px py cx cy r P0 : ℝ) : V3 :=
  vsub (north2d P0)
    (vsmul (vdot (north2d P0) (unitNormal px py cx cy r)) (unitNormal px py cx cy r))

/-- Normalized tangent north (solar_reprojector.py line 167):
`north_tangent /= np.linalg.norm(north_tangent)`, with no guard on the norm. -/
def northTangent (px py cx cy r P0 : ℝ) : V3 :=
  vdivs (northTangentRaw px py cx cy r P0) (vnorm (northTangentRaw px py cx cy r P0))

/-- Orthonormal tangent basis of `rectify_patch_from_solar_orientation`
(solar_reprojector.py lines 170-176): `y_axis = -north_tangent`,
`z_axis = n`, `x_axis = cross(y_axis, z_axis)` normalized; returned as the
columns `(x_axis, y_axis, z_axis)` of the rotation `R`. -/
def tangentBasis (px py cx cy r P0 : ℝ) : V3 × V3 × V3 :=
  (vdivs (vcross (vneg (northTangent px py cx cy r P0)) (unitNormal px py cx cy r))
    (vnorm (vcross (vneg (northTangent px py cx cy r P0)) (unitNormal px py cx cy r))),
   vneg (northTangent px py cx cy r P0),
   unitNormal px py cx cy r)

/-- Application of the rotation `R` with columns `(x_axis, y_axis, z_axis)` to
a local tangent-plane point, as in `points_local @ R.T`
(solar_reprojector.py lines 183-184). -/
def applyColumns (B : V3 × V3 × V3) (w : V3) : V3 :=
  vadd (vadd (vsmul w.1 B.1) (vsmul w.2.1 B.2.1)) (vsmul w.2.2 B.2.2)

/-- Resampling source coordinate of one grid point of
`rectify_patch_from_solar_orientation` (solar_reprojector.py lines 179-188):
the local tangent coordinates `(u, v)` (already scaled by `scale/(2r)`) are
lifted to `(u, v, 1)`, rotated through `R`, and projected back to pixel
coordinates `(X * r + cx, Y * r + cy)`. -/
def rectifySample (px py cx cy r P0 u v : ℝ) : ℝ × ℝ :=
  ((applyColumns (tangentBasis px py cx cy r P0) (u, v, 1)).1 * r + cx,
   (applyColumns (tangentBasis px py cx cy r P0) (u, v, 1)).2.1 * r + cy)

end

/-- Claim C5, counterexample: `rectify_patch_from_solar_orientation` has no
guard on the tangent normalization.  At the limb point `(px, py) = (0, -1)`
of the unit disk centered at the origin with `P0 = 0`, the projected north
tangent is exactly the zero vector (norm 0), and the subsequent unguarded
division produces the zero vector as `y_axis` (numpy: NaN components) — not
any axis-aligned unit vector, so no axis-aligned fallback occurs. -/
theorem rectify_tangent_basis_no_fallback :
    vnorm (northTangentRaw 0 (-1) 0 0 1 0) = 0 ∧
    (tangentBasis 0 (-1) 0 0 1 0).2.1 = ((0 : ℝ), (0 : ℝ), (0 : ℝ)) ∧
    ¬ ((tangentBasis 0 (-1) 0 0 1 0).2.1 = ((1 : ℝ), 0, 0) ∨
       (tangentBasis 0 (-1) 0 0 1 0).2.1 = ((-1 : ℝ), 0, 0) ∨
       (tangentBasis 0 (-1) 0 0 1 0).2.1 = ((0 : ℝ), 1, 0) ∨
       (tangentBasis 0 (-1) 0 0 1 0).2.1 = ((0 : ℝ), -1, 0) ∨
       (tangentBasis 0 (-1) 0 0 1 0).2.1 = ((0 : ℝ), 0, 1) ∨
       (tangentBasis 0 (-1) 0 0 1 0).2.1 = ((0 : ℝ), 0, -1)) := by
  have hcts : cartesian_to_spherical 0 (-1) 0 0 1 = (0, -1, 0) := by
    unfold cartesian_to_spherical
    norm_num
  have hnorm1 : vnorm ((0 : ℝ), (-1 : ℝ), (0 : ℝ)) = 1 := by
    unfold vnorm vdot
    norm_num
  have hn : unitNormal 0 (-1) 0 0 1 = (0, -1, 0) := by
    unfold unitNormal
    rw [hcts, hnorm1]
    unfold vdivs
    norm_num
  have hnorth : north2d 0 = (0, -1, 0) := by
    unfold north2d deg2rad
    norm_num
  have hraw : northTangentRaw 0 (-1) 0 0 1 0 = (0, 0, 0) := by
    unfold northTangentRaw
    rw [hn, hnorth]
    unfold vdot vsmul vsub
    norm_num
  have hrawnorm : vnorm (northTangentRaw 0 (-1) 0 0 1 0) = 0 := by
    rw [hraw]
    unfold vnorm vdot
    norm_num
  have hnt : northTangent 0 (-1) 0 0 1 0 = (0, 0, 0) := by
    unfold northTangent
    rw [hraw]
    unfold vdivs vnorm vdot
    norm_num
  have hy : (tangentBasis 0 (-1) 0 0 1 0).2.1 = ((0 : ℝ), (0 : ℝ), (0 : ℝ)) := by
    unfold tangentBasis
    rw [hnt]
    unfold vneg
    norm_num
  refine ⟨hrawnorm, hy, ?_⟩
  rw [hy]
  push_neg
  refine ⟨?_, ?_, ?_, ?_, ?_, ?_⟩ <;> simp [Prod.ext_iff]

/-- Claim C5, amended: the tangent-basis construction of
`rectify_patch_from_solar_orientation` contains no degeneracy guard and never
raises: whenever the projected north tangent has norm 0, the unguarded
division yields the zero vector (numpy: NaN), so the basis degenerates to
`((0,0,0), (0,0,0), n)` instead of falling back to an axis-aligned basis. -/
theorem rectify_tangent_basis_degenerate (px py cx cy r P0 : ℝ)
    (h : vnorm (northTangentRaw px py cx cy r P0) = 0) :
    tangentBasis px py cx cy r P0 =
      (((0 : ℝ), (0 : ℝ), (0 : ℝ)), ((0 : ℝ), (0 : ℝ), (0 : ℝ)),
        unitNormal px py cx cy r) := by
  have hnt : northTangent px py cx cy r P0 = (0, 0, 0) := by
    unfold northTangent
    rw [h]
    unfold vdivs
    norm_num
  unfold tangentBasis
  rw [hnt]
  unfold vneg vcross vdivs vnorm vdot
  norm_num

/-- Witness for `rectify_tangent_basis_degenerate` at the degenerate limb
input `(px, py, cx, cy, r, P0) = (0, -1, 0, 0, 1, 0)`. -/
theorem rectify_tangent_basis_degenerate_witness :
    vnorm (northTangentRaw 0 (-1) 0 0 1 0) = 0 ∧
    tangentBasis 0 (-1) 0 0 1 0 =
      (((0 : ℝ), (0 : ℝ), (0 : ℝ)), ((0 : ℝ), (0 : ℝ), (0 : ℝ)),
        unitNormal 0 (-1) 0 0 1) := by
  have hcts : cartesian_to_spherical 0 (-1) 0 0 1 = (0, -1, 0) := by
    unfold cartesian_to_spherical
    norm_num
  have hnorm1 : vnorm ((0 : ℝ), (-1 : ℝ), (0 : ℝ)) = 1 := by
    unfold vnorm vdot
    norm_num
  have hn : unitNormal 0 (-1) 0 0 1 = (0, -1, 0) := by
    unfold unitNormal
    rw [hcts, hnorm1]
    unfold vdivs
    norm_num
  have hnorth : north2d 0 = (0, -1, 0) := by
    unfold north2d deg2rad
    norm_num
  have hraw : northTangentRaw 0 (-1) 0 0 1 0 = (0, 0, 0) := by
    unfold northTangentRaw
    rw [hn, hnorth]
    unfold vdot vsmul vsub
    norm_num
  have hrawnorm : vnorm (northTangentRaw 0 (-1) 0 0 1 0) = 0 := by
    rw [hraw]
    unfold vnorm vdot
    norm_num
  exact ⟨hrawnorm, rectify_tangent_basis_degenerate 0 (-1) 0 0 1 0 hrawnorm⟩

/-- Rotation by the basis columns sends the local origin `(0, 0, 1)` of the
tangent plane to the third column (the z-axis). -/
theorem applyColumns_e3 (B : V3 × V3 × V3) :
    applyColumns B ((0 : ℝ), (0 : ℝ), (1 : ℝ)) = B.2.2 := by
  unfold applyColumns vadd vsmul
  simp only [Prod.ext_iff]
  refine ⟨by ring, by ring, by ring⟩

/-- Claim C6: for an on-disk candidate center and positive radius, the
sampling map of `rectify_patch_from_solar_orientation` satisfies the
round-trip identity at the anchor point — the rotation applied to the local
tangent-plane origin `(0, 0, 1)` yields exactly the unit sphere normal at
`(px, py)`, and the resampling coordinate at the patch center is `(px, py)`
itself. -/
theorem rectify_round_trip (px py cx cy r P0 : ℝ) (hr : 0 < r)
    (hdisk : ((px - cx) / r) ^ 2 + ((py - cy) / r) ^ 2 ≤ 1) :
    applyColumns (tangentBasis px py cx cy r P0) ((0 : ℝ), (0 : ℝ), (1 : ℝ)) =
      unitNormal px py cx cy r ∧
    rectifySample px py cx cy r P0 0 0 = (px, py) := by
  have happ : applyColumns (tangentBasis px py cx cy r P0) ((0 : ℝ), (0 : ℝ), (1 : ℝ)) =
      unitNormal px py cx cy r := by
    rw [applyColumns_e3]
    rfl
  have hs : (0 : ℝ) ≤ 1 - (((px - cx) / r) ^ 2 + ((py - cy) / r) ^ 2) := by
    linarith
  have hdot : vdot (cartesian_to_spherical px py cx cy r)
      (cartesian_to_spherical px py cx cy r) = 1 := by
    unfold cartesian_to_spherical vdot
    rw [if_pos hdisk, Real.mul_self_sqrt hs]
    ring
  have hv : vnorm (cartesian_to_spherical px py cx cy r) = 1 := by
    unfold vnorm
    rw [hdot]
    exact Real.sqrt_one
  have hun : unitNormal px py cx cy r = cartesian_to_spherical px py cx cy r := by
    unfold unitNormal
    rw [hv]
    unfold vdivs
    simp only [Prod.ext_iff, div_one]
  refine ⟨happ, ?_⟩
  unfold rectifySample
  rw [happ, hun]
  unfold cartesian_to_spherical
  have hr' : r ≠ 0 := hr.ne'
  have hx : (px - cx) / r * r + cx = px := by
    field_simp
  have hy : (py - cy) / r * r + cy = py := by
    field_simp
  rw [Prod.mk.injEq]
  exact ⟨hx, hy⟩

/-- Witness for `rectify_round_trip` at the disk-center anchor of the unit
disk with `P0 = 0`. -/
theorem rectify_round_trip_witness :
    (0 : ℝ) < 1 ∧
    (((0 : ℝ) - 0) / 1) ^ 2 + (((0 : ℝ) - 0) / 1) ^ 2 ≤ 1 ∧
    (applyColumns (tangentBasis 0 0 0 0 1 0) ((0 : ℝ), (0 : ℝ), (1 : ℝ)) =
      unitNormal 0 0 0 0 1 ∧
     rectifySample 0 0 0 0 1 0 0 0 = (0, 0)) :=
  ⟨by norm_num, by norm_num, rectify_round_trip 0 0 0 0 1 0 (by norm_num) (by norm_num)⟩

noncomputable section

/-- Patch-bounding-box test of `SolarGridGenerator.generate_patch_grid`
(solar_grid_generator.py lines 143-145): keep a global grid point `(gx, gy)`
when `patch_x <= gx < patch_x + patch_size` and
`patch_y <= gy < patch_y + patch_size`. -/
def inPatchB (patch_x patch_y patch_size : ℤ) (p : ℝ × ℝ) : Bool :=
  decide ((patch_x : ℝ) ≤ p.1 ∧ p.1 < (patch_x : ℝ) + (patch_size : ℝ) ∧
    (patch_y : ℝ) ≤ p.2 ∧ p.2 < (patch_y : ℝ) + (patch_size : ℝ))

/-- Embedding of `SolarGridGenerator._rectify_point`
(solar_grid_generator.py lines 186-234): recover the global pixel, take the
unit surface normal there, build the tangent basis at the patch center
(`center = patch + patch_size // 2`, identical construction to
`rectify_patch_from_solar_orientation`), express the normal in the tangent
frame through the transposed rotation, and scale back by
`local * r + patch_size / 2`. -/
def rectify_point (px_local py_local : ℝ) (patch_x patch_y : ℤ) (cx cy r P0 : ℝ)
    (patch_size : ℤ) : ℝ × ℝ :=
  (vdot (tangentBasis ((patch_x + patch_size / 2 : ℤ) : ℝ)
      ((patch_y + patch_size / 2 : ℤ) : ℝ) cx cy r P0).1
      (unitNormal ((patch_x : ℝ) + px_local) ((patch_y : ℝ) + py_local) cx cy r) * r +
    (patch_size : ℝ) / 2,
   vdot (tangentBasis ((patch_x + patch_size / 2 : ℤ) : ℝ)
      ((patch_y + patch_size / 2 : ℤ) : ℝ) cx cy r P0).2.1
      (unitNormal ((patch_x : ℝ) + px_local) ((patch_y : ℝ) + py_local) cx cy r) * r +
    (patch_size : ℝ) / 2)

/-- Point loop of `generate_patch_grid.process_lines`
(solar_grid_generator.py lines 136-161): drop points outside the patch
bounding box, convert survivors to patch-local coordinates, and transform
them through `_rectify_point`. -/
def process_line_points (patch_x patch_y patch_size : ℤ) (cx cy r P0 : ℝ)
    (pts : List (ℝ × ℝ)) : List (ℝ × ℝ) :=
  (pts.filter (fun p => inPatchB patch_x patch_y patch_size p)).map
    (fun p => rectify_point (p.1 - (patch_x : ℝ)) (p.2 - (patch_y : ℝ))
      patch_x patch_y cx cy r P0 patch_size)

end

/-- Claim C7, counterexample: a surviving point's output coordinates can leave
`[0, patch_size)`.  For the patch at `(1368, 768)` of size 512 on the disk
`(1024, 1024, 1000)` with `P0 = 0`, the global grid point `(1824, 1024)` lies
inside the patch bounding box, yet `generate_patch_grid` emits it at the
rectified position `(536, 256)` whose x-coordinate is not below 512. -/
theorem generate_patch_grid_output_out_of_bounds :
    process_line_points 1368 768 512 1024 1024 1000 0 [((1824 : ℝ), (1024 : ℝ))] =
      [((536 : ℝ), (256 : ℝ))] ∧
    ¬ ((536 : ℝ) < 512) := by
  have hg : cartesian_to_spherical 1824 1024 1024 1024 1000 =
      ((0.8 : ℝ), (0 : ℝ), (0.6 : ℝ)) := by
    unfold cartesian_to_spherical
    rw [if_pos (by norm_num)]
    have harg : (1 : ℝ) - ((((1824 : ℝ) - 1024) / 1000) ^ 2 +
        (((1024 : ℝ) - 1024) / 1000) ^ 2) = (0.6 : ℝ) ^ 2 := by
      norm_num
    rw [harg, Real.sqrt_sq (by norm_num)]
    norm_num
  have hc : cartesian_to_spherical 1624 1024 1024 1024 1000 =
      ((0.6 : ℝ), (0 : ℝ), (0.8 : ℝ)) := by
    unfold cartesian_to_spherical
    rw [if_pos (by norm_num)]
    have harg : (1 : ℝ) - ((((1624 : ℝ) - 1024) / 1000) ^ 2 +
        (((1024 : ℝ) - 1024) / 1000) ^ 2) = (0.8 : ℝ) ^ 2 := by
      norm_num
    rw [harg, Real.sqrt_sq (by norm_num)]
    norm_num
  have hdg : vdot ((0.8 : ℝ), (0 : ℝ), (0.6 : ℝ)) ((0.8 : ℝ), (0 : ℝ), (0.6 : ℝ)) = 1 := by
    unfold vdot
    norm_num
  have hgn : vnorm ((0.8 : ℝ), (0 : ℝ), (0.6 : ℝ)) = 1 := by
    unfold vnorm
    rw [hdg]
    exact Real.sqrt_one
  have hdc : vdot ((0.6 : ℝ), (0 : ℝ), (0.8 : ℝ)) ((0.6 : ℝ), (0 : ℝ), (0.8 : ℝ)) = 1 := by
    unfold vdot
    norm_num
  have hcn : vnorm ((0.6 : ℝ), (0 : ℝ), (0.8 : ℝ)) = 1 := by
    unfold vnorm
    rw [hdc]
    exact Real.sqrt_one
  have hng : unitNormal 1824 1024 1024 1024 1000 = ((0.8 : ℝ), (0 : ℝ), (0.6 : ℝ)) := by
    unfold unitNormal
    rw [hg, hgn]
    unfold vdivs
    norm_num
  have hnc : unitNormal 1624 1024 1024 1024 1000 = ((0.6 : ℝ), (0 : ℝ), (0.8 : ℝ)) := by
    unfold unitNormal
    rw [hc, hcn]
    unfold vdivs
    norm_num
  have hnorth : north2d 0 = ((0 : ℝ), (-1 : ℝ), (0 : ℝ)) := by
    unfold north2d deg2rad
    norm_num
  have hraw : northTangentRaw 1624 1024 1024 1024 1000 0 =
      ((0 : ℝ), (-1 : ℝ), (0 : ℝ)) := by
    unfold northTangentRaw
    rw [hnc, hnorth]
    unfold vdot vsmul vsub
    norm_num
  have hdr : vdot ((0 : ℝ), (-1 : ℝ), (0 : ℝ)) ((0 : ℝ), (-1 : ℝ), (0 : ℝ)) = 1 := by
    unfold vdot
    norm_num
  have hrn : vnorm ((0 : ℝ), (-1 : ℝ), (0 : ℝ)) = 1 := by
    unfold vnorm
    rw [hdr]
    exact Real.sqrt_one
  have hnt : northTangent 1624 1024 1024 1024 1000 0 = ((0 : ℝ), (-1 : ℝ), (0 : ℝ)) := by
    unfold northTangent
    rw [hraw, hrn]
    unfold vdivs
    norm_num
  have hcr : vcross (vneg ((0 : ℝ), (-1 : ℝ), (0 : ℝ))) ((0.6 : ℝ), (0 : ℝ), (0.8 : ℝ)) =
      ((0.8 : ℝ), (0 : ℝ), (-0.6 : ℝ)) := by
    unfold vneg vcross
    norm_num
  have hdx : vdot ((0.8 : ℝ), (0 : ℝ), (-0.6 : ℝ)) ((0.8 : ℝ), (0 : ℝ), (-0.6 : ℝ)) = 1 := by
    unfold vdot
    norm_num
  have hxn : vnorm ((0.8 : ℝ), (0 : ℝ), (-0.6 : ℝ)) = 1 := by
    unfold vnorm
    rw [hdx]
    exact Real.sqrt_one
  have hB : tangentBasis 1624 1024 1024 1024 1000 0 =
      (((0.8 : ℝ), (0 : ℝ), (-0.6 : ℝ)), ((0 : ℝ), (1 : ℝ), (0 : ℝ)),
        ((0.6 : ℝ), (0 : ℝ), (0.8 : ℝ))) := by
    unfold tangentBasis
    rw [hnt, hnc, hcr, hxn]
    unfold vdivs vneg
    norm_num
  have hrp : rectify_point 456 256 1368 768 1024 1024 1000 0 512 =
      ((536 : ℝ), (256 : ℝ)) := by
    unfold rectify_point
    rw [show ((1368 + 512 / 2 : ℤ) : ℝ) = 1624 from by norm_num,
        show ((768 + 512 / 2 : ℤ) : ℝ) = 1024 from by norm_num,
        show ((1368 : ℤ) : ℝ) + (456 : ℝ) = 1824 from by norm_num,
        show ((768 : ℤ) : ℝ) + (256 : ℝ) = 1024 from by norm_num]
    rw [hB, hng]
    unfold vdot
    norm_num
  constructor
  · have hin : (fun p => inPatchB 1368 768 512 p) ((1824 : ℝ), (1024 : ℝ)) = true := by
      unfold inPatchB
      rw [decide_eq_true_eq]
      push_cast
      norm_num
    unfold process_line_points
    rw [List.filter_cons_of_pos hin, List.filter_nil]
    simp only [List.map_cons, List.map_nil]
    rw [show (1824 : ℝ) - ((1368 : ℤ) : ℝ) = 456 from by norm_num,
        show (1024 : ℝ) - ((768 : ℤ) : ℝ) = 256 from by norm_num]
    rw [hrp]
  · norm_num

/-- Claim C7, amended: `generate_patch_grid` never emits a global grid point
that lies outside the patch's bounding box — such points are dropped by the
filter — and every surviving point has pre-rectification patch-local
coordinates inside `[0, patch_size)` in both axes; the emitted coordinates,
however, are the rectified ones and may leave `[0, patch_size)`. -/
theorem generate_patch_grid_clipping (patch_x patch_y patch_size : ℤ)
    (cx cy r P0 : ℝ) (p : ℝ × ℝ) (pts : List (ℝ × ℝ)) :
    (inPatchB patch_x patch_y patch_size p = false →
      process_line_points patch_x patch_y patch_size cx cy r P0 (p :: pts) =
        process_line_points patch_x patch_y patch_size cx cy r P0 pts) ∧
    (inPatchB patch_x patch_y patch_size p = true →
      0 ≤ p.1 - (patch_x : ℝ) ∧ p.1 - (patch_x : ℝ) < (patch_size : ℝ) ∧
      0 ≤ p.2 - (patch_y : ℝ) ∧ p.2 - (patch_y : ℝ) < (patch_size : ℝ)) := by
  constructor
  · intro hf
    unfold process_line_points
    rw [List.filter_cons_of_neg (by simp [hf])]
  · intro ht
    unfold inPatchB at ht
    rw [decide_eq_true_eq] at ht
    obtain ⟨h1, h2, h3, h4⟩ := ht
    exact ⟨by linarith, by linarith, by linarith, by linarith⟩

/-- Witness for `generate_patch_grid_clipping`: the point `(2000, 2000)` is
outside the patch `(1368, 768)` of size 512 and contributes nothing, while
the inside point `(1824, 1024)` has local coordinates in `[0, 512)`. -/
theorem generate_patch_grid_clipping_witness :
    (inPatchB 1368 768 512 ((2000 : ℝ), (2000 : ℝ)) = false ∧
     process_line_points 1368 768 512 1024 1024 1000 0 [((2000 : ℝ), (2000 : ℝ))] =
       process_line_points 1368 768 512 1024 1024 1000 0 []) ∧
    (inPatchB 1368 768 512 ((1824 : ℝ), (1024 : ℝ)) = true ∧
     (0 ≤ (1824 : ℝ) - ((1368 : ℤ) : ℝ) ∧
      (1824 : ℝ) - ((1368 : ℤ) : ℝ) < ((512 : ℤ) : ℝ) ∧
      0 ≤ (1024 : ℝ) - ((768 : ℤ) : ℝ) ∧
      (1024 : ℝ) - ((768 : ℤ) : ℝ) < ((512 : ℤ) : ℝ))) := by
  have hf : inPatchB 1368 768 512 ((2000 : ℝ), (2000 : ℝ)) = false := by
    unfold inPatchB
    rw [decide_eq_false_iff_not]
    push_cast
    norm_num
  have ht : inPatchB 1368 768 512 ((1824 : ℝ), (1024 : ℝ)) = true := by
    unfold inPatchB
    rw [decide_eq_true_eq]
    push_cast
    norm_num
  exact ⟨⟨hf, (generate_patch_grid_clipping 1368 768 512 1024 1024 1000 0
      ((2000 : ℝ), (2000 : ℝ)) []).1 hf⟩,
    ⟨ht, (generate_patch_grid_clipping 1368 768 512 1024 1024 1000 0
      ((1824 : ℝ), (1024 : ℝ)) []).2 ht⟩⟩

noncomputable section

/-- Modelled from the spec: in-plane x-component of the unit-sphere point for
a heliographic `(lat, lon)` pair before the P0 rotation (spec.md section 4.6;
the function `SolarReprojector.heliographic_to_image` that computes it is
called by `generate_global_grid_15deg` but is not defined anywhere under the
repository sources). -/
def hgx1 (lat lon L0 : ℝ) : ℝ :=
  Real.cos (deg2rad lat) * Real.sin (deg2rad (lon - L0))

/-- Modelled from the spec: in-plane y-component after the B0 tilt. -/
def hgy2 (lat lon B0 L0 : ℝ) : ℝ :=
  Real.sin (deg2rad lat) * Real.cos (deg2rad B0) -
    Real.cos (deg2rad lat) * Real.cos (deg2rad (lon - L0)) * Real.sin (deg2rad B0)

/-- Modelled from the spec: line-of-sight component after the B0 tilt; a
point is on the near hemisphere exactly when this is positive. -/
def hgz (lat lon B0 L0 : ℝ) : ℝ :=
  Real.sin (deg2rad lat) * Real.sin (deg2rad B0) +
    Real.cos (deg2rad lat) * Real.cos (deg2rad (lon - L0)) * Real.cos (deg2rad B0)

/-- Modelled from the spec: image-plane x after the P0 rotation. -/
def hgx (lat lon B0 P0 L0 : ℝ) : ℝ :=
  hgx1 lat lon L0 * Real.cos (deg2rad P0) + hgy2 lat lon B0 L0 * Real.sin (deg2rad P0)

/-- Modelled from the spec: image-plane y after the P0 rotation. -/
def hgy (lat lon B0 P0 L0 : ℝ) : ℝ :=
  hgy2 lat lon B0 L0 * Real.cos (deg2rad P0) - hgx1 lat lon L0 * Real.sin (deg2rad P0)

/-- Modelled from the spec: `SolarReprojector.heliographic_to_image`, the
forward heliographic-to-pixel projection
`(lat, lon, B0, P0, L0, cx, cy, r) -> (px, py, valid)` (spec.md section 4.6),
absent from the repository sources though called by
`generate_global_grid_15deg`: construct the 3-D point on the unit sphere for
the `(lat, lon)` pair under the orientation, project to pixel space, and mark
the point invalid when it lies on the far hemisphere or its projection falls
outside the visible disk. -/
def heliographic_to_image (lat lon B0 P0 L0 cx cy r : ℝ) : ℝ × ℝ × Bool :=
  (cx + r * hgx lat lon B0 P0 L0,
   cy - r * hgy lat lon B0 P0 L0,
   decide (0 < hgz lat lon B0 L0 ∧
     (cx + r * hgx lat lon B0 P0 L0 - cx) ^ 2 +
       (cy - r * hgy lat lon B0 P0 L0 - cy) ^ 2 ≤ r ^ 2))

/-- Sample loop of one grid polyline of `generate_global_grid_15deg`
(solar_grid_generator.py lines 57-69 and 80-92): evaluate the forward
projection at each sample and append only points whose valid flag is set. -/
def gridLinePoints (f : ℝ → ℝ × ℝ × Bool) (samples : List ℝ) : List (ℝ × ℝ) :=
  samples.filterMap (fun s => if (f s).2.2 then some ((f s).1, (f s).2.1) else none)

/-- Numpy `linspace` with both endpoints included
(solar_grid_generator.py lines 55 and 78). -/
def pyLinspace (a b : ℝ) (n : ℕ) : List ℝ :=
  (List.range n).map (fun i => a + (b - a) * (i : ℝ) / ((n : ℝ) - 1))

/-- Latitude values `np.arange(-75, 90, 15)` (solar_grid_generator.py line 45). -/
def latValues : List ℝ :=
  [-75, -60, -45, -30, -15, 0, 15, 30, 45, 60, 75]

/-- Longitude values `np.arange(-180, 195, 15)` (solar_grid_generator.py line 46). -/
def lonValues : List ℝ :=
  [-180, -165, -150, -135, -120, -105, -90, -75, -60, -45, -30, -15, 0,
   15, 30, 45, 60, 75, 90, 105, 120, 135, 150, 165, 180]

/-- Polyline of a grid: the fixed latitude or longitude and its projected
pixel points. -/
structure GridLine where
  fixedCoord : ℝ
  points : List (ℝ × ℝ)

/-- Latitude polylines of `generate_global_grid_15deg`
(solar_grid_generator.py lines 52-72): one polyline per latitude value,
sampled over longitudes, appended only when some point survived. -/
def latLines (B0 P0 L0 cx cy r : ℝ) (num_points : ℕ) : List GridLine :=
  latValues.filterMap (fun lat =>
    if (gridLinePoints (fun lon => heliographic_to_image lat lon B0 P0 L0 cx cy r)
        (pyLinspace (-180) 180 num_points)).isEmpty then none
    else some ⟨lat, gridLinePoints
        (fun lon => heliographic_to_image lat lon B0 P0 L0 cx cy r)
        (pyLinspace (-180) 180 num_points)⟩)

/-- Longitude polylines of `generate_global_grid_15deg`
(solar_grid_generator.py lines 75-95). -/
def lonLines (B0 P0 L0 cx cy r : ℝ) (num_points : ℕ) : List GridLine :=
  lonValues.filterMap (fun lon =>
    if (gridLinePoints (fun lat => heliographic_to_image lat lon B0 P0 L0 cx cy r)
        (pyLinspace (-90) 90 num_points)).isEmpty then none
    else some ⟨lon, gridLinePoints
        (fun lat => heliographic_to_image lat lon B0 P0 L0 cx cy r)
        (pyLinspace (-90) 90 num_points)⟩)

/-- Embedding of `SolarGridGenerator.generate_global_grid_15deg`
(solar_grid_generator.py lines 14-100), with the orientation values B0, P0,
L0 (transcendental functions of the timestamp) taken as parameters. -/
def generate_global_grid_15deg (B0 P0 L0 cx cy r : ℝ) (num_points : ℕ) :
    List GridLine × List GridLine :=
  (latLines B0 P0 L0 cx cy r num_points, lonLines B0 P0 L0 cx cy r num_points)

end

/-- Far-hemisphere evaluation of the modelled projection: the antipodal
equator point `lon = 180` under the plain orientation `B0 = P0 = L0 = 0`
receives a false valid flag. -/
theorem heliographic_far_point_invalid :
    (heliographic_to_image 0 180 0 0 0 0 0 1).2.2 = false := by
  have h0 : (0 : ℝ) * Real.pi / 180 = 0 := by
    norm_num
  have h180 : ((180 : ℝ) - 0) * Real.pi / 180 = Real.pi := by
    rw [show ((180 : ℝ) - 0) = 180 from by norm_num]
    field_simp
  have hz : hgz 0 180 0 0 = -1 := by
    unfold hgz deg2rad
    rw [h0, h180, Real.sin_zero, Real.cos_zero, Real.cos_pi]
    norm_num
  show decide (0 < hgz 0 180 0 0 ∧ _) = false
  rw [hz, decide_eq_false_iff_not]
  intro hcon
  have := hcon.1
  norm_num at this

/-- Claim C8: `generate_global_grid_15deg` silently omits invalid projection
points and completes normally — a sample whose projection carries a false
valid flag contributes nothing to its polyline; every polyline is exactly the
valid-filtered, projected sample list; every latitude line in the output is a
nonempty such polyline for one of the fixed latitude values; and under the
modelled projection a far-hemisphere point indeed carries a false flag.  No
error value exists anywhere in the construction: the function is total. -/
theorem generate_global_grid_omits_invalid :
    (∀ (f : ℝ → ℝ × ℝ × Bool) (s : ℝ) (rest : List ℝ), (f s).2.2 = false →
      gridLinePoints f (s :: rest) = gridLinePoints f rest) ∧
    (∀ (f : ℝ → ℝ × ℝ × Bool) (samples : List ℝ),
      gridLinePoints f samples =
        (samples.filter (fun s => (f s).2.2)).map (fun s => ((f s).1, (f s).2.1))) ∧
    (∀ (B0 P0 L0 cx cy r : ℝ) (n : ℕ) (gl : GridLine),
      gl ∈ (generate_global_grid_15deg B0 P0 L0 cx cy r n).1 →
      gl.points ≠ [] ∧ ∃ lat ∈ latValues,
        gl = ⟨lat, gridLinePoints
          (fun lon => heliographic_to_image lat lon B0 P0 L0 cx cy r)
          (pyLinspace (-180) 180 n)⟩) ∧
    (heliographic_to_image 0 180 0 0 0 0 0 1).2.2 = false := by
  refine ⟨?_, ?_, ?_, heliographic_far_point_invalid⟩
  · intro f s rest h
    unfold gridLinePoints
    rw [List.filterMap_cons_none (by simp [h])]
  · intro f samples
    induction samples with
    | nil => rfl
    | cons s rest ih =>
      unfold gridLinePoints at ih ⊢
      by_cases h : (f s).2.2 = true
      · simp [List.filterMap_cons, List.filter_cons, h, ih]
      · simp [List.filterMap_cons, List.filter_cons, h, ih]
  · intro B0 P0 L0 cx cy r n gl hmem
    unfold generate_global_grid_15deg latLines at hmem
    rw [List.mem_filterMap] at hmem
    obtain ⟨lat, hlat, hg⟩ := hmem
    by_cases hemp : (gridLinePoints
        (fun lon => heliographic_to_image lat lon B0 P0 L0 cx cy r)
        (pyLinspace (-180) 180 n)).isEmpty = true
    · rw [if_pos hemp] at hg
      exact absurd hg (by simp)
    · rw [if_neg hemp] at hg
      have hgl := Option.some.inj hg
      refine ⟨?_, lat, hlat, hgl.symm⟩
      rw [← hgl]
      intro hnil
      rw [List.isEmpty_iff] at hemp
      exact hemp hnil

/-- Witness for `generate_global_grid_omits_invalid`: the far-hemisphere
sample `lon = 180` of the equator line under the plain orientation is
silently dropped from its polyline. -/
theorem generate_global_grid_omits_invalid_witness :
    (heliographic_to_image 0 180 0 0 0 0 0 1).2.2 = false ∧
    gridLinePoints (fun lon => heliographic_to_image 0 lon 0 0 0 0 0 1) [(180 : ℝ)] =
      gridLinePoints (fun lon => heliographic_to_image 0 lon 0 0 0 0 0 1) [] :=
  ⟨heliographic_far_point_invalid,
    generate_global_grid_omits_invalid.1
      (fun lon => heliographic_to_image 0 lon 0 0 0 0 0 1) 180 []
      heliographic_far_point_invalid⟩
